import Mathlib

set_option linter.unusedVariables false

/-!
Shallow embedding of the snapshot lifecycle manager of conflux-rust,
src/core/storage/src/impls/storage_db/snapshot_db_manager_sqlite.rs.

Epoch ids (EpochId, an H256 in the source) are modelled as natural numbers;
NULL_EPOCH is 0.  The directory naming scheme of the source (a fixed prefix
plus the hex encoding of the epoch id) is injective and collision free across
the different prefixes, so paths are modelled structurally: one constructor
per naming function.  The manager state carries the two open-handle caches
(already_open_snapshots and mpt_already_open_snapshots), the two semaphore
permit pools, the set of directories on disk, and a ghost trace of the
externally visible actions (directory copies, renames, scheduled removals,
merges).  The ghost trace never influences control flow.

Concurrency is sequentialized: the busy-wait loops of the source, which wait
for an asynchronously closing database to vanish from the cache, are modelled
by completing the pending close on the spot (the close callback on_close
removes the cache entry, returns the permit, and performs the deferred
removal when the entry was marked).  A blocking semaphore acquire with an
empty pool, which in the source blocks the thread forever in a single
threaded execution, is modelled by the distinguished error value Blocked.
Rust panics (the unreachable branches and an unwrap of None) are modelled by
distinguished error values as well.  External database operations that are
out of scope for the manager (SnapshotDbSqlite create, open, dump, merge) are
modelled as succeeding, with their directory effects recorded.
-/

/-- Structural model of the directory paths produced by the path naming
functions of SnapshotDbManagerSqlite.  Each constructor corresponds to one
naming function of the source; the hex based naming makes them injective and
mutually distinct. -/
inductive DbPath : Type
  | snapshotDb (epoch : Nat)
  | mergeTemp (oldEpoch newEpoch : Nat)
  | fullSyncTemp (epoch root : Nat)
  | mptSnapshotDb (epoch : Nat)
  | mptMergeTemp (newEpoch : Nat)
  | mptLatest
  deriving DecidableEq, Repr

/-- Value of an already_open_snapshots map entry.  In the source, None means
exclusively open for write and Some holds a Weak reference; the model keeps
the strong reference count (Weak upgrade succeeds iff strong > 0) together
with the remove-on-last-close mark of the underlying database. -/
inductive Entry : Type
  | exclusive
  | shared (strong : Nat) (removeOnClose : Bool)
  deriving DecidableEq, Repr

/-- An open snapshot handle as seen by callers: the fixed null snapshot or a
database at a path. -/
inductive Handle : Type
  | null
  | db (p : DbPath)
  deriving DecidableEq, Repr

/-- Error kinds of the source (errors.rs ErrorKind) together with the model
artifacts: Blocked stands for a blocking semaphore acquire that would never
return in a sequential execution, PanicUnreachable and PanicUnwrapNone stand
for Rust panics. -/
inductive Err : Type
  | SnapshotAlreadyExists
  | SnapshotNotFound
  | SnapshotCowCreation
  | SnapshotCopyFailure
  | SemaphoreTryAcquireError
  | IoError
  | Blocked
  | PanicUnreachable
  | PanicUnwrapNone
  deriving DecidableEq, Repr

/-- Ghost trace of externally visible filesystem and database actions. -/
inductive Event : Type
  | fsRemove (p : DbPath)
  | markRemoveOnClose (p : DbPath)
  | cowCopy (src dst : DbPath)
  | stdCopy (src dst : DbPath)
  | renamed (src dst : DbPath)
  | freshCreate (p : DbPath)
  | openedWrite (p : DbPath)
  | dropMptTable (p : DbPath)
  | dropDeltaDump (p : DbPath)
  | dumpDelta (p : DbPath)
  | directMerge (withOld : Option DbPath)
  | copyAndMergeEv (old : DbPath)
  | defrag (p : DbPath)
  deriving DecidableEq, Repr

/-- CopyType of the source: which copy strategy succeeded. -/
inductive CopyType : Type
  | Cow
  | Std
  deriving DecidableEq, Repr

/-- Configuration fields of SnapshotDbManagerSqlite that the claims touch. -/
structure Config : Type where
  force_cow : Bool
  use_isolated_db_for_mpt_table : Bool
  use_isolated_db_for_mpt_table_height : Option Nat
  era_epoch_count : Nat
  deriving DecidableEq, Repr

/-- Environment oracle: target platform and outcomes of the external copy
commands.  osLinux and osMacos model the cfg(target_os) checks; cowCmdIoErr
models command.output() returning Err; cowCmdOk models status.success();
stdCopyOk models the outcome of the fs_extra full directory copy. -/
structure Oracle : Type where
  osLinux : Bool
  osMacos : Bool
  cowCmdIoErr : Bool
  cowCmdOk : Bool
  stdCopyOk : Bool
  deriving DecidableEq, Repr

/-- Mutable state of the manager: the two open-handle caches, the two permit
pools (available permits of the tokio semaphores), the directories existing
on disk, and the ghost event trace. -/
structure MState : Type where
  cache : List (DbPath × Entry)
  mptCache : List (DbPath × Entry)
  permits : Nat
  mptPermits : Nat
  files : List DbPath
  events : List Event
  deriving DecidableEq, Repr

deriving instance DecidableEq for Except

def NULL_EPOCH : Nat := 0

def tblGet : List (DbPath × Entry) → DbPath → Option Entry
  | [], _ => none
  | (k, v) :: rest, p => if k = p then some v else tblGet rest p

def tblPut : List (DbPath × Entry) → DbPath → Entry → List (DbPath × Entry)
  | [], p, e => [(p, e)]
  | (k, v) :: rest, p, e =>
    if k = p then (p, e) :: rest else (k, v) :: tblPut rest p e

def tblDel : List (DbPath × Entry) → DbPath → List (DbPath × Entry)
  | [], _ => []
  | (k, v) :: rest, p =>
    if k = p then tblDel rest p else (k, v) :: tblDel rest p

def addFile (l : List DbPath) (p : DbPath) : List DbPath :=
  if p ∈ l then l else l ++ [p]

def delFile : List DbPath → DbPath → List DbPath
  | [], _ => []
  | q :: rest, p => if q = p then delFile rest p else q :: delFile rest p

/-- get_snapshot_db_path, lines 628-631: snapshot dir joined with the hex
name of the epoch. -/
def get_snapshot_db_path (epoch : Nat) : DbPath := DbPath.snapshotDb epoch

/-- get_merge_temp_snapshot_db_path, lines 416-425. -/
def get_merge_temp_snapshot_db_path (oldEpoch newEpoch : Nat) : DbPath :=
  DbPath.mergeTemp oldEpoch newEpoch

/-- get_full_sync_temp_snapshot_db_path, lines 427-436. -/
def get_full_sync_temp_snapshot_db_path (epoch root : Nat) : DbPath :=
  DbPath.fullSyncTemp epoch root

/-- get_merge_temp_mpt_snapshot_db_path, lines 438-446. -/
def get_merge_temp_mpt_snapshot_db_path (newEpoch : Nat) : DbPath :=
  DbPath.mptMergeTemp newEpoch

/-- get_mpt_snapshot_db_path, lines 448-451. -/
def get_mpt_snapshot_db_path (epoch : Nat) : DbPath :=
  DbPath.mptSnapshotDb epoch

/-- The latest MPT snapshot directory, mpt_snapshot_path/latest. -/
def latest_mpt_path : DbPath := DbPath.mptLatest

/-- try_make_snapshot_cow_copy_impl, lines 456-502.  On linux or macos the cp
command runs: an io error removes the new directory and propagates through
the question mark operator; an unsuccessful status removes the new directory
and is fatal exactly when force_cow is set; success leaves the copied
directory in place.  On any other platform the function returns Ok false
without running anything. -/
def try_make_snapshot_cow_copy_impl (cfg : Config) (o : Oracle)
    (oldPath newPath : DbPath) (s : MState) : Except Err Bool × MState :=
  if o.osLinux || o.osMacos then
    if o.cowCmdIoErr then
      (Except.error Err.IoError, { s with files := delFile s.files newPath })
    else if o.cowCmdOk then
      (Except.ok true,
       { s with files := addFile s.files newPath,
                events := s.events ++ [Event.cowCopy oldPath newPath] })
    else
      if cfg.force_cow then
        (Except.error Err.SnapshotCowCreation,
         { s with files := delFile s.files newPath })
      else
        (Except.ok false, { s with files := delFile s.files newPath })
  else
    (Except.ok false, s)

/-- try_make_snapshot_cow_copy, lines 529-553.  Any error of the impl is
discarded into Ok false; Ok false with force_cow set becomes the fatal
SnapshotCowCreation error. -/
def try_make_snapshot_cow_copy (cfg : Config) (o : Oracle)
    (oldPath newPath : DbPath) (s : MState) : Except Err Bool × MState :=
  match try_make_snapshot_cow_copy_impl cfg o oldPath newPath s with
  | (Except.error _, s1) => (Except.ok false, s1)
  | (Except.ok false, s1) =>
    if cfg.force_cow then (Except.error Err.SnapshotCowCreation, s1)
    else (Except.ok false, s1)
  | (Except.ok true, s1) => (Except.ok true, s1)

/-- try_copy_snapshot, lines 504-524: cow copy when possible, otherwise a
full recursive directory copy via fs_extra; a failed full copy is the
SnapshotCopyFailure error. -/
def try_copy_snapshot (cfg : Config) (o : Oracle)
    (oldPath newPath : DbPath) (s : MState) : Except Err CopyType × MState :=
  match try_make_snapshot_cow_copy cfg o oldPath newPath s with
  | (Except.error e, s1) => (Except.error e, s1)
  | (Except.ok true, s1) => (Except.ok CopyType.Cow, s1)
  | (Except.ok false, s1) =>
    if o.stdCopyOk then
      (Except.ok CopyType.Std,
       { s1 with files := addFile s1.files newPath,
                 events := s1.events ++ [Event.stdCopy oldPath newPath] })
    else
      (Except.error Err.SnapshotCopyFailure, s1)

/-- rename_snapshot_db, lines 572-576: fs::rename fails when the source path
does not exist. -/
def rename_snapshot_db (src dst : DbPath) (s : MState) :
    Except Err Unit × MState :=
  if src ∈ s.files then
    (Except.ok (),
     { s with files := addFile (delFile s.files src) dst,
              events := s.events ++ [Event.renamed src dst] })
  else
    (Except.error Err.IoError, s)

/-- Models dropping the last caller reference to a shared read handle: the
drop decrements the strong count; when it reaches zero, the asynchronous
close runs on_close (lines 369-388), which performs the deferred removal
when the handle was marked, removes the cache entry and returns the permit.
Sequentialized: the close completes immediately. -/
def drop_shared_handle (path : DbPath) (s : MState) : MState :=
  match tblGet s.cache path with
  | some (Entry.shared (n + 1) rm) =>
    if n = 0 then
      { s with cache := tblDel s.cache path,
               permits := s.permits + 1,
               events := s.events ++ (if rm then [Event.fsRemove path] else []) }
    else
      { s with cache := tblPut s.cache path (Entry.shared n rm) }
  | _ => s

/-- Models dropping a handle that open_snapshot_write registered exclusively:
on_close removes the cache entry and returns the forgotten permit.  The db
directly created by the NULL_EPOCH branch of new_snapshot_by_merging never
entered the cache and holds no forgotten permit, hence the no-op default. -/
def drop_exclusive_handle (path : DbPath) (s : MState) : MState :=
  match tblGet s.cache path with
  | some Entry.exclusive =>
    { s with cache := tblDel s.cache path, permits := s.permits + 1 }
  | _ => s

/-- Final step of a fresh read-only mpt open, lines 350-361: open the sqlite
db, forget the permit (the pool stays decremented) and register a shared
weak entry with one strong reference. -/
def omr_finish (path : DbPath) (s : MState) :
    Except Err (Option Handle) × MState :=
  (Except.ok (some (Handle.db path)),
   { s with mptCache := tblPut s.mptCache path (Entry.shared 1 false) })

/-- Re-check loop of open_mpt_snapshot_readonly after permit acquisition,
lines 325-348.  sOrig is the state before the acquire (an early return drops
the permit guard, releasing the permit); s0 carries the held permit.  A stale
weak entry is waited out: its close removes the entry, returns the closing
permit, and performs the deferred removal when marked. -/
def omr_after_acquire (path : DbPath) (sOrig s0 : MState) :
    Except Err (Option Handle) × MState :=
  match tblGet s0.mptCache path with
  | some Entry.exclusive => (Except.ok none, sOrig)
  | some (Entry.shared (n + 1) rm) =>
    (Except.ok (some (Handle.db path)),
     { sOrig with mptCache := tblPut sOrig.mptCache path (Entry.shared (n + 2) rm) })
  | some (Entry.shared 0 rm) =>
    omr_finish path
      { s0 with mptCache := tblDel s0.mptCache path,
                mptPermits := s0.mptPermits + 1,
                events := s0.events ++ (if rm then [Event.fsRemove path] else []) }
  | none => omr_finish path s0

/-- open_mpt_snapshot_readonly, lines 282-367. -/
def open_mpt_snapshot_readonly (path : DbPath) (try_open : Bool) (s : MState) :
    Except Err (Option Handle) × MState :=
  match tblGet s.mptCache path with
  | some Entry.exclusive => (Except.ok none, s)
  | some (Entry.shared (n + 1) rm) =>
    (Except.ok (some (Handle.db path)),
     { s with mptCache := tblPut s.mptCache path (Entry.shared (n + 2) rm) })
  | _ =>
    if path ∈ s.files then
      if try_open then
        if s.mptPermits = 0 then (Except.error Err.SemaphoreTryAcquireError, s)
        else omr_after_acquire path s { s with mptPermits := s.mptPermits - 1 }
      else
        if s.mptPermits = 0 then (Except.error Err.Blocked, s)
        else omr_after_acquire path s { s with mptPermits := s.mptPermits - 1 }
    else
      (Except.ok none, s)

/-- Final step of a fresh read-only snapshot open, lines 188-202: open the
sqlite db, forget the permit and register a shared weak entry with one
strong reference. -/
def osr_finish (path : DbPath) (s : MState) :
    Except Err (Option Handle) × MState :=
  (Except.ok (some (Handle.db path)),
   { s with cache := tblPut s.cache path (Entry.shared 1 false) })

/-- Isolated mpt handling of open_snapshot_readonly, lines 171-186: when the
mpt table is isolated and an era mpt directory exists for the epoch, it is
opened read-only with blocking admission, and an Ok None outcome hits the
unwrap of None (a panic).  The error paths drop the held snapshot permit
guard, releasing the permit. -/
def osr_open_inner (cfg : Config) (path : DbPath) (eid : Nat) (s : MState) :
    Except Err (Option Handle) × MState :=
  if cfg.use_isolated_db_for_mpt_table then
    if get_mpt_snapshot_db_path eid ∈ s.files then
      match open_mpt_snapshot_readonly (get_mpt_snapshot_db_path eid) false s with
      | (Except.error e, s1) =>
        (Except.error e, { s1 with permits := s1.permits + 1 })
      | (Except.ok none, s1) =>
        (Except.error Err.PanicUnwrapNone, { s1 with permits := s1.permits + 1 })
      | (Except.ok (some _), s1) => osr_finish path s1
    else
      osr_finish path s
  else
    osr_finish path s

/-- Re-check loop of open_snapshot_readonly after permit acquisition, lines
134-169; same conventions as omr_after_acquire. -/
def osr_after_acquire (cfg : Config) (path : DbPath) (eid : Nat)
    (sOrig s0 : MState) : Except Err (Option Handle) × MState :=
  match tblGet s0.cache path with
  | some Entry.exclusive => (Except.ok none, sOrig)
  | some (Entry.shared (n + 1) rm) =>
    (Except.ok (some (Handle.db path)),
     { sOrig with cache := tblPut sOrig.cache path (Entry.shared (n + 2) rm) })
  | some (Entry.shared 0 rm) =>
    osr_open_inner cfg path eid
      { s0 with cache := tblDel s0.cache path,
                permits := s0.permits + 1,
                events := s0.events ++ (if rm then [Event.fsRemove path] else []) }
  | none => osr_open_inner cfg path eid s0

/-- open_snapshot_readonly, lines 99-206.  An entry open for exclusive write
yields Ok None; a live shared entry is upgraded and returned; with no usable
entry, a missing file yields Ok None, otherwise a permit is acquired
(try_acquire failing fast when the pool is empty) and the file is opened. -/
def open_snapshot_readonly (cfg : Config) (path : DbPath) (try_open : Bool)
    (eid : Nat) (s : MState) : Except Err (Option Handle) × MState :=
  match tblGet s.cache path with
  | some Entry.exclusive => (Except.ok none, s)
  | some (Entry.shared (n + 1) rm) =>
    (Except.ok (some (Handle.db path)),
     { s with cache := tblPut s.cache path (Entry.shared (n + 2) rm) })
  | _ =>
    if path ∈ s.files then
      if try_open then
        if s.permits = 0 then (Except.error Err.SemaphoreTryAcquireError, s)
        else osr_after_acquire cfg path eid s { s with permits := s.permits - 1 }
      else
        if s.permits = 0 then (Except.error Err.Blocked, s)
        else osr_after_acquire cfg path eid s { s with permits := s.permits - 1 }
    else
      (Except.ok none, s)

/-- Transcription of the mpt_table_in_current_db computation inside
open_snapshot_write, lines 237-244. -/
def open_snapshot_write_mpt_table_in_current_db (cfg : Config)
    (epoch_height : Nat) : Bool :=
  if cfg.use_isolated_db_for_mpt_table then
    match cfg.use_isolated_db_for_mpt_table_height with
    | some v => decide (epoch_height < v)
    | _ => false
  else true

/-- open_snapshot_write, lines 208-280.  Any existing cache entry makes the
open fail with SnapshotAlreadyExists before a permit is touched; otherwise a
permit is acquired blocking, the check is repeated under the serialization
lock, and the db is created (create = true) or opened read-write (failing
with SnapshotNotFound when the directory is missing, and dropping the mpt
table when the isolation flag excludes it); on success the permit is
forgotten and an exclusive entry is registered. -/
def open_snapshot_write (cfg : Config) (path : DbPath) (create : Bool)
    (epoch_height : Nat) (s : MState) : Except Err Handle × MState :=
  if (tblGet s.cache path).isSome then
    (Except.error Err.SnapshotAlreadyExists, s)
  else if s.permits = 0 then
    (Except.error Err.Blocked, s)
  else if (tblGet s.cache path).isSome then
    (Except.error Err.SnapshotAlreadyExists, s)
  else
    if create then
      (Except.ok (Handle.db path),
       { s with permits := s.permits - 1,
                cache := tblPut s.cache path Entry.exclusive,
                files := addFile s.files path,
                events := s.events ++ [Event.freshCreate path, Event.openedWrite path] })
    else
      if path ∈ s.files then
        (Except.ok (Handle.db path),
         { s with permits := s.permits - 1,
                  cache := tblPut s.cache path Entry.exclusive,
                  events := s.events ++ [Event.openedWrite path] ++
                    (if open_snapshot_write_mpt_table_in_current_db cfg epoch_height
                     then [] else [Event.dropMptTable path]) })
      else
        (Except.error Err.SnapshotNotFound, s)

/-- get_snapshot_by_epoch_id, lines 761-770: the NULL_EPOCH sentinel returns
the fixed null snapshot without touching cache, semaphore or filesystem. -/
def get_snapshot_by_epoch_id (cfg : Config) (eid : Nat) (try_open : Bool)
    (s : MState) : Except Err (Option Handle) × MState :=
  if eid = NULL_EPOCH then
    (Except.ok (some Handle.null), s)
  else
    open_snapshot_readonly cfg (get_snapshot_db_path eid) try_open eid s

/-- Second half of destroy_snapshot, lines 815-854: the same two-phase logic
on the mpt cache.  Note that the removal branch of the source (line 847)
passes the main snapshot path, not the mpt path; the model transcribes
that verbatim. -/
def destroy_snapshot_mpt_part (eid : Nat) (path : DbPath) (s : MState) :
    Except Err Unit × MState :=
  match tblGet s.mptCache (get_mpt_snapshot_db_path eid) with
  | some Entry.exclusive => (Except.error Err.PanicUnreachable, s)
  | some (Entry.shared (n + 1) rm) =>
    (Except.ok (),
     { s with mptCache := tblPut s.mptCache (get_mpt_snapshot_db_path eid)
                (Entry.shared (n + 1) true),
              events := s.events ++ [Event.markRemoveOnClose (get_mpt_snapshot_db_path eid)] })
  | some (Entry.shared 0 rm) =>
    if eid ≠ NULL_EPOCH then
      (Except.ok (),
       { s with mptCache := tblDel s.mptCache (get_mpt_snapshot_db_path eid),
                mptPermits := s.mptPermits + 1,
                events := s.events ++
                  (if rm then [Event.fsRemove (get_mpt_snapshot_db_path eid)] else []) ++
                  [Event.fsRemove path] })
    else
      (Except.ok (),
       { s with mptCache := tblDel s.mptCache (get_mpt_snapshot_db_path eid),
                mptPermits := s.mptPermits + 1,
                events := s.events ++
                  (if rm then [Event.fsRemove (get_mpt_snapshot_db_path eid)] else []) })
  | none =>
    if eid ≠ NULL_EPOCH then
      (Except.ok (), { s with events := s.events ++ [Event.fsRemove path] })
    else
      (Except.ok (), s)

/-- destroy_snapshot, lines 772-857.  A live shared entry is marked for
removal on last close; a stale entry is waited out (its close completes); an
absent entry triggers an immediate asynchronous removal unless the epoch is
the NULL_EPOCH sentinel; an exclusive entry is an unreachable panic.  The
paired mpt branch follows. -/
def destroy_snapshot (eid : Nat) (s : MState) : Except Err Unit × MState :=
  match tblGet s.cache (get_snapshot_db_path eid) with
  | some Entry.exclusive => (Except.error Err.PanicUnreachable, s)
  | some (Entry.shared (n + 1) rm) =>
    destroy_snapshot_mpt_part eid (get_snapshot_db_path eid)
      { s with cache := tblPut s.cache (get_snapshot_db_path eid)
                 (Entry.shared (n + 1) true),
               events := s.events ++ [Event.markRemoveOnClose (get_snapshot_db_path eid)] }
  | some (Entry.shared 0 rm) =>
    if eid ≠ NULL_EPOCH then
      destroy_snapshot_mpt_part eid (get_snapshot_db_path eid)
        { s with cache := tblDel s.cache (get_snapshot_db_path eid),
                 permits := s.permits + 1,
                 events := s.events ++
                   (if rm then [Event.fsRemove (get_snapshot_db_path eid)] else []) ++
                   [Event.fsRemove (get_snapshot_db_path eid)] }
    else
      destroy_snapshot_mpt_part eid (get_snapshot_db_path eid)
        { s with cache := tblDel s.cache (get_snapshot_db_path eid),
                 permits := s.permits + 1,
                 events := s.events ++
                   (if rm then [Event.fsRemove (get_snapshot_db_path eid)] else []) }
  | none =>
    if eid ≠ NULL_EPOCH then
      destroy_snapshot_mpt_part eid (get_snapshot_db_path eid)
        { s with events := s.events ++ [Event.fsRemove (get_snapshot_db_path eid)] }
    else
      destroy_snapshot_mpt_part eid (get_snapshot_db_path eid) s

/-- Transcription of the mpt_table_in_current_db computation inside
new_snapshot_by_merging, lines 654-661. -/
def new_snapshot_by_merging_mpt_table_in_current_db (cfg : Config)
    (new_epoch_height : Nat) : Bool :=
  if cfg.use_isolated_db_for_mpt_table then
    match cfg.use_isolated_db_for_mpt_table_height with
    | some v => decide (new_epoch_height < v)
    | _ => false
  else true

/-- Merge phase of new_snapshot_by_merging, lines 663-719, producing the cow
flag.  Base case: direct creation at the temp path, delta dump, merge against
nothing.  Incremental case: when try_copy_snapshot succeeds the copied db is
opened for write, the carried-over delta dump is dropped, the new delta is
dumped and merged directly against a read-only open of the old snapshot;
when try_copy_snapshot fails with any error (the if-let-Ok in the source), a
fresh db is created and copy_and_merge reads the old snapshot instead.  Error
exits after the exclusive open drop the handle, whose close unregisters it
and returns the permit. -/
def nsbm_merge_phase (cfg : Config) (o : Oracle) (old_epoch : Nat)
    (new_epoch_height : Nat) (temp_db_path : DbPath) (s : MState) :
    Except Err Bool × MState :=
  if old_epoch = NULL_EPOCH then
    (Except.ok false,
     { s with files := addFile s.files temp_db_path,
              events := s.events ++ [Event.freshCreate temp_db_path,
                Event.dumpDelta temp_db_path, Event.directMerge none] })
  else
    match try_copy_snapshot cfg o (get_snapshot_db_path old_epoch) temp_db_path s with
    | (Except.ok ct, s1) =>
      match open_snapshot_write cfg temp_db_path false new_epoch_height s1 with
      | (Except.error e, s2) => (Except.error e, s2)
      | (Except.ok _, s2) =>
        match open_snapshot_readonly cfg (get_snapshot_db_path old_epoch) false
            old_epoch
            { s2 with events := s2.events ++ [Event.dropDeltaDump temp_db_path,
                Event.dumpDelta temp_db_path] } with
        | (Except.error e, s3) =>
          (Except.error e, drop_exclusive_handle temp_db_path s3)
        | (Except.ok none, s3) =>
          (Except.error Err.SnapshotNotFound, drop_exclusive_handle temp_db_path s3)
        | (Except.ok (some _), s3) =>
          (Except.ok (ct = CopyType.Cow),
           drop_shared_handle (get_snapshot_db_path old_epoch)
             { s3 with events := s3.events ++
                 [Event.directMerge (some (get_snapshot_db_path old_epoch))] })
    | (Except.error _, s1) =>
      match open_snapshot_write cfg temp_db_path true new_epoch_height s1 with
      | (Except.error e, s2) => (Except.error e, s2)
      | (Except.ok _, s2) =>
        match open_snapshot_readonly cfg (get_snapshot_db_path old_epoch) false
            old_epoch
            { s2 with events := s2.events ++ [Event.dumpDelta temp_db_path] } with
        | (Except.error e, s3) =>
          (Except.error e, drop_exclusive_handle temp_db_path s3)
        | (Except.ok none, s3) =>
          (Except.error Err.SnapshotNotFound, drop_exclusive_handle temp_db_path s3)
        | (Except.ok (some _), s3) =>
          (Except.ok false,
           drop_shared_handle (get_snapshot_db_path old_epoch)
             { s3 with events := s3.events ++
                 [Event.copyAndMergeEv (get_snapshot_db_path old_epoch)] })

/-- Era-boundary mpt block of new_snapshot_by_merging, lines 721-741: when
the mpt table is not inline and the new epoch height is an era multiple, the
latest mpt snapshot is copied to the merge-temp mpt path, then the source
renames temp_db_path (the merge-temp snapshot directory, not the copied
temp_mpt_path) onto the era mpt directory; the model transcribes that
verbatim. -/
def nsbm_mpt_block (cfg : Config) (o : Oracle) (new_epoch : Nat)
    (new_epoch_height : Nat) (mpt_in : Bool) (temp_db_path : DbPath)
    (s : MState) : Except Err Unit × MState :=
  if !mpt_in && (new_epoch_height % cfg.era_epoch_count == 0) then
    match try_copy_snapshot cfg o latest_mpt_path
        (get_merge_temp_mpt_snapshot_db_path new_epoch) s with
    | (Except.error e, s1) => (Except.error e, s1)
    | (Except.ok _, s1) =>
      rename_snapshot_db temp_db_path (get_mpt_snapshot_db_path new_epoch) s1
  else
    (Except.ok (), s)

/-- new_snapshot_by_merging, lines 633-759.  After the merge phase and the
era-boundary mpt block, the snapshot handle is dropped, the registry write
lock is taken and the merge-temp directory is renamed to its committed name;
on linux, a cow-copied snapshot whose epoch id has zero low bits gets a
background defragmentation pass. -/
def new_snapshot_by_merging (cfg : Config) (o : Oracle)
    (old_epoch new_epoch : Nat) (new_epoch_height : Nat) (s : MState) :
    Except Err Unit × MState :=
  match nsbm_merge_phase cfg o old_epoch new_epoch_height
      (get_merge_temp_snapshot_db_path old_epoch new_epoch) s with
  | (Except.error e, s1) => (Except.error e, s1)
  | (Except.ok cow, s1) =>
    match nsbm_mpt_block cfg o new_epoch new_epoch_height
        (new_snapshot_by_merging_mpt_table_in_current_db cfg new_epoch_height)
        (get_merge_temp_snapshot_db_path old_epoch new_epoch) s1 with
    | (Except.error e, s2) =>
      (Except.error e,
       drop_exclusive_handle (get_merge_temp_snapshot_db_path old_epoch new_epoch) s2)
    | (Except.ok _, s2) =>
      match rename_snapshot_db (get_merge_temp_snapshot_db_path old_epoch new_epoch)
          (get_snapshot_db_path new_epoch)
          (drop_exclusive_handle (get_merge_temp_snapshot_db_path old_epoch new_epoch) s2) with
      | (Except.error e, s3) => (Except.error e, s3)
      | (Except.ok _, s3) =>
        if o.osLinux && cow && (new_epoch % 16 == 0) then
          (Except.ok (),
           { s3 with events := s3.events ++ [Event.defrag (get_snapshot_db_path new_epoch)] })
        else
          (Except.ok (), s3)

/-- Modelled from the spec: the key-value contents of a snapshot database
(SnapshotDbSqlite is an external collaborator whose code is not part of the
covered sources).  Contents are association lists strictly sorted by key;
kvInsert keeps them sorted and replaces an existing binding. -/
def kvInsert {β : Type} (k : Nat) (v : β) : List (Nat × β) → List (Nat × β)
  | [] => [(k, v)]
  | (k1, v1) :: rest =>
    if k < k1 then (k, v) :: (k1, v1) :: rest
    else if k = k1 then (k, v) :: rest
    else (k1, v1) :: kvInsert k v rest

/-- Modelled from the spec: deletion of a key from sorted snapshot
contents. -/
def kvErase {β : Type} (k : Nat) : List (Nat × β) → List (Nat × β)
  | [] => []
  | (k1, v1) :: rest => if k = k1 then rest else (k1, v1) :: kvErase k rest

/-- Modelled from the spec: lookup in snapshot contents. -/
def kvLookup {β : Type} (k : Nat) : List (Nat × β) → Option β
  | [] => none
  | (k1, v1) :: rest => if k = k1 then some v1 else kvLookup k rest

/-- Sortedness of snapshot contents: keys strictly increase. -/
def keySorted {β : Type} (m : List (Nat × β)) : Prop :=
  List.Pairwise (fun a b => a.1 < b.1) m

/-- Modelled from the spec: one incremental state change of the delta trie
iterator, an insertion (some value) or a deletion (none) at a key. -/
abbrev DeltaOp : Type := Nat × Option Nat

/-- Modelled from the spec: dump_delta_mpt of SnapshotDbSqlite writes the
delta iterator into the delta table of the temp database, keyed by key, a
later change to the same key overwriting an earlier one.  Both merge paths
perform this same dump. -/
def dump_delta_mpt (d : List DeltaOp) : List DeltaOp :=
  d.foldl (fun t op => kvInsert op.1 op.2 t) []

/-- Modelled from the spec: applying one dumped delta row to snapshot
contents. -/
def dApply (m : List (Nat × Nat)) (op : DeltaOp) : List (Nat × Nat) :=
  match op.2 with
  | some v => kvInsert op.1 v m
  | none => kvErase op.1 m

/-- Modelled from the spec: direct_merge with a prior snapshot, as run on the
cow path of new_snapshot_by_merging (lines 676-709): the temp database holds
a copy of the old snapshot contents, and the dumped delta rows are applied
into that copy in place. -/
def direct_merge_table (oldTable : List (Nat × Nat)) (dump : List DeltaOp) :
    List (Nat × Nat) :=
  dump.foldl dApply oldTable

/-- Modelled from the spec: the insertions of a dumped delta, in dump order,
used when merging into empty contents. -/
def deltaInserts : List DeltaOp → List (Nat × Nat)
  | [] => []
  | (k, some v) :: rest => (k, v) :: deltaInserts rest
  | (k, none) :: rest => deltaInserts rest

/-- Modelled from the spec: copy_and_merge of SnapshotDbSqlite, as run on the
fallback path of new_snapshot_by_merging (lines 710-718): the temp database
holds only the dumped delta, and the whole old snapshot is read through a
fresh read-only open and merged with the dumped delta in one sorted merge
pass, the delta overriding the old contents at equal keys. -/
def copy_and_merge_table : List (Nat × Nat) → List DeltaOp → List (Nat × Nat)
  | old, [] => old
  | [], dump => deltaInserts dump
  | (k1, v1) :: old, (k2, ov2) :: dump =>
    if k1 < k2 then
      (k1, v1) :: copy_and_merge_table old ((k2, ov2) :: dump)
    else if k2 < k1 then
      match ov2 with
      | some v2 => (k2, v2) :: copy_and_merge_table ((k1, v1) :: old) dump
      | none => copy_and_merge_table ((k1, v1) :: old) dump
    else
      match ov2 with
      | some v2 => (k2, v2) :: copy_and_merge_table old dump
      | none => copy_and_merge_table old dump
  termination_by old dump => old.length + dump.length

/-- Modelled from the spec: the merkle root as a digest of the full snapshot
contents (the concrete hash is irrelevant to the equivalence claim; any
function of the contents works). -/
def merkle_root_of (m : List (Nat × Nat)) : Nat :=
  m.foldl (fun h kv => h * 1000003 + kv.1 * 31 + kv.2) 7

/-- Canonical snapshot contents built from an arbitrary list of bindings. -/
def buildTable (entries : List (Nat × Nat)) : List (Nat × Nat) :=
  entries.foldl (fun m kv => kvInsert kv.1 kv.2 m) []

/-- Root computed by the cow path of new_snapshot_by_merging: copy the old
snapshot, dump the delta, direct_merge against the old snapshot handle. -/
def new_snapshot_by_merging_cow_root (old : List (Nat × Nat))
    (d : List DeltaOp) : Nat :=
  merkle_root_of (direct_merge_table old (dump_delta_mpt d))

/-- Root computed by the fallback path of new_snapshot_by_merging: create a
fresh db, dump the delta, copy_and_merge reading the whole old snapshot. -/
def new_snapshot_by_merging_fallback_root (old : List (Nat × Nat))
    (d : List DeltaOp) : Nat :=
  merkle_root_of (copy_and_merge_table old (dump_delta_mpt d))

/-- Resolution of a key against a dumped delta: a dumped insertion wins, a
dumped deletion erases, an untouched key falls back to the old contents. -/
def deltaResolve (r : Option (Option Nat)) (fallback : Option Nat) : Option Nat :=
  match r with
  | some (some v) => some v
  | some none => none
  | none => fallback

/-- Configuration with an isolated mpt table, no height threshold, era length
10 (the C1 scenario). -/
def cfgIsolated : Config :=
  { force_cow := false, use_isolated_db_for_mpt_table := true,
    use_isolated_db_for_mpt_table_height := none, era_epoch_count := 10 }

/-- Configuration mandating cow duplication, mpt table inline. -/
def cfgForceCow : Config :=
  { force_cow := true, use_isolated_db_for_mpt_table := false,
    use_isolated_db_for_mpt_table_height := none, era_epoch_count := 1 }

/-- Default configuration: no forced cow, mpt table inline. -/
def cfgPlain : Config :=
  { force_cow := false, use_isolated_db_for_mpt_table := false,
    use_isolated_db_for_mpt_table_height := none, era_epoch_count := 1 }

/-- Platform without cow support where full directory copies succeed. -/
def oracleStdOnly : Oracle :=
  { osLinux := false, osMacos := false, cowCmdIoErr := false,
    cowCmdOk := false, stdCopyOk := true }

/-- Platform without cow support where the full directory copy fails too. -/
def oracleNoCopy : Oracle :=
  { osLinux := false, osMacos := false, cowCmdIoErr := false,
    cowCmdOk := false, stdCopyOk := false }

/-- Initial state for an incremental merge: empty caches, two permits per
pool, the old snapshot directory and the latest mpt directory on disk. -/
def init_merge_state (old_epoch : Nat) : MState :=
  { cache := [], mptCache := [], permits := 2, mptPermits := 2,
    files := [get_snapshot_db_path old_epoch, latest_mpt_path], events := [] }

/-- State with no open handles and the directories of epoch 1 on disk. -/
def destroyState : MState :=
  { cache := [], mptCache := [], permits := 1, mptPermits := 1,
    files := [DbPath.snapshotDb 1, DbPath.mptSnapshotDb 1, DbPath.mptLatest],
    events := [] }

/-- State where the snapshot of epoch 7 is open exclusively for write. -/
def exclState : MState :=
  { cache := [(DbPath.snapshotDb 7, Entry.exclusive)], mptCache := [],
    permits := 3, mptPermits := 3, files := [DbPath.snapshotDb 7], events := [] }

/-- State with nothing tracked and nothing on disk. -/
def absentState : MState :=
  { cache := [], mptCache := [], permits := 3, mptPermits := 3,
    files := [], events := [] }

/-- State where the snapshot of epoch 4 has one live shared reader. -/
def sharedState : MState :=
  { cache := [(DbPath.snapshotDb 4, Entry.shared 1 false)], mptCache := [],
    permits := 3, mptPermits := 3, files := [DbPath.snapshotDb 4], events := [] }

theorem tblGet_tblPut_self (c : List (DbPath × Entry)) (p : DbPath) (e : Entry) :
    tblGet (tblPut c p e) p = some e := by
  induction c with
  | nil => simp [tblGet, tblPut]
  | cons kv rest ih =>
    by_cases h : kv.1 = p
    · simp [tblPut, tblGet, h]
    · simp [tblPut, tblGet, h, ih]

/-- Claim C1: at an era boundary with the mpt table isolated, the spec says
the latest mpt snapshot copy should land in the era-named mpt directory and
the merge-temp snapshot directory should still be the one renamed to the
committed snapshot path.  The code instead renames the merge-temp snapshot
directory itself onto the era mpt path (line 740 uses temp_db_path, not
temp_mpt_path), abandoning the copied latest mpt at the temp mpt path, so
the final commit rename of the merge-temp directory fails with an io error:
the function cannot succeed on any such call. -/
theorem new_snapshot_by_merging_era_mpt_rename_bug :
    (new_snapshot_by_merging cfgIsolated oracleStdOnly 1 2 10 (init_merge_state 1)).1
        = Except.error Err.IoError
    ∧ Event.renamed (get_merge_temp_snapshot_db_path 1 2) (get_mpt_snapshot_db_path 2)
        ∈ (new_snapshot_by_merging cfgIsolated oracleStdOnly 1 2 10 (init_merge_state 1)).2.events
    ∧ Event.renamed (get_merge_temp_mpt_snapshot_db_path 2) (get_mpt_snapshot_db_path 2)
        ∉ (new_snapshot_by_merging cfgIsolated oracleStdOnly 1 2 10 (init_merge_state 1)).2.events
    ∧ Event.stdCopy latest_mpt_path (get_merge_temp_mpt_snapshot_db_path 2)
        ∈ (new_snapshot_by_merging cfgIsolated oracleStdOnly 1 2 10 (init_merge_state 1)).2.events
    ∧ Event.renamed (get_merge_temp_snapshot_db_path 1 2) (get_snapshot_db_path 2)
        ∉ (new_snapshot_by_merging cfgIsolated oracleStdOnly 1 2 10 (init_merge_state 1)).2.events := by
  decide

/-- Claim C2, counterexample: with force_cow set and cow unsupported on the
platform, try_make_snapshot_cow_copy does produce the fatal
SnapshotCowCreation error, but new_snapshot_by_merging succeeds: the error
never reaches its caller, refuting the claim as stated. -/
theorem new_snapshot_by_merging_force_cow_not_fatal_cex :
    cfgForceCow.force_cow = true
    ∧ try_make_snapshot_cow_copy cfgForceCow oracleStdOnly (get_snapshot_db_path 1)
        (get_merge_temp_snapshot_db_path 1 2) (init_merge_state 1)
        = (Except.error Err.SnapshotCowCreation, init_merge_state 1)
    ∧ (new_snapshot_by_merging cfgForceCow oracleStdOnly 1 2 5 (init_merge_state 1)).1
        = Except.ok () := by
  decide

/-- Claim C4, counterexample: when the fallback full directory copy fails,
try_copy_snapshot does produce the SnapshotCopyFailure error, but
new_snapshot_by_merging succeeds: the error is not propagated to its caller,
refuting the claim as stated. -/
theorem new_snapshot_by_merging_copy_failure_not_fatal_cex :
    try_copy_snapshot cfgPlain oracleNoCopy (get_snapshot_db_path 1)
        (get_merge_temp_snapshot_db_path 1 2) (init_merge_state 1)
        = (Except.error Err.SnapshotCopyFailure, init_merge_state 1)
    ∧ (new_snapshot_by_merging cfgPlain oracleNoCopy 1 2 5 (init_merge_state 1)).1
        = Except.ok () := by
  decide

/-- Claim C3: with no open handle for epoch 1, the spec says the mpt branch
of destroy_snapshot removes the mpt snapshot directory of the epoch; the
code (line 847) passes the main snapshot path again, so the trace removes
the main directory twice and never the mpt directory. -/
theorem destroy_snapshot_mpt_branch_removes_main_path :
    destroy_snapshot 1 destroyState
      = (Except.ok (),
         { destroyState with events :=
             [Event.fsRemove (get_snapshot_db_path 1),
              Event.fsRemove (get_snapshot_db_path 1)] })
    ∧ Event.fsRemove (get_mpt_snapshot_db_path 1)
        ∉ (destroy_snapshot 1 destroyState).2.events := by
  decide

/-- Claim C5, counterexample: an exclusively held path and an untracked,
nonexistent path produce the very same Ok None result, so the ExclusiveBusy
outcome is not distinguishable from the Absent outcome, refuting the claim
as stated. -/
theorem open_snapshot_readonly_exclusive_absent_indistinct :
    tblGet exclState.cache (DbPath.snapshotDb 7) = some Entry.exclusive
    ∧ tblGet absentState.cache (DbPath.snapshotDb 7) = none
    ∧ DbPath.snapshotDb 7 ∉ absentState.files
    ∧ open_snapshot_readonly cfgPlain (DbPath.snapshotDb 7) false 7 exclState
        = (Except.ok none, exclState)
    ∧ open_snapshot_readonly cfgPlain (DbPath.snapshotDb 7) false 7 absentState
        = (Except.ok none, absentState)
    ∧ (open_snapshot_readonly cfgPlain (DbPath.snapshotDb 7) false 7 exclState).1
        = (open_snapshot_readonly cfgPlain (DbPath.snapshotDb 7) false 7 absentState).1 := by
  decide

/-- Claim C7: for both admission policies, asking for the NULL_EPOCH
sentinel returns the fixed null snapshot, never fails, and leaves the whole
manager state (caches, permit pools, disk, trace) untouched. -/
theorem get_snapshot_by_epoch_id_null_epoch :
    ∀ (cfg : Config) (try_open : Bool) (s : MState),
      get_snapshot_by_epoch_id cfg NULL_EPOCH try_open s
        = (Except.ok (some Handle.null), s) := by
  intro cfg try_open s
  simp [get_snapshot_by_epoch_id]

/-- Claim C9: destroying the NULL_EPOCH sentinel with no cache entry for its
snapshot path nor for its mpt path performs or schedules no removal in
either branch and returns Ok, leaving the state unchanged. -/
theorem destroy_snapshot_null_epoch_noop :
    ∀ (s : MState),
      tblGet s.cache (get_snapshot_db_path NULL_EPOCH) = none →
      tblGet s.mptCache (get_mpt_snapshot_db_path NULL_EPOCH) = none →
      destroy_snapshot NULL_EPOCH s = (Except.ok (), s) := by
  intro s h1 h2
  simp [destroy_snapshot, destroy_snapshot_mpt_part, h1, h2]

theorem destroy_snapshot_null_epoch_noop_witness :
    destroy_snapshot NULL_EPOCH destroyState = (Except.ok (), destroyState) :=
  destroy_snapshot_null_epoch_noop destroyState (by decide) (by decide)

/-- Claim C10: with the isolation flag set and no height threshold
configured, the mpt_table_in_current_db computations of both
new_snapshot_by_merging and open_snapshot_write yield false at every epoch
height: the trie table is never inline. -/
theorem mpt_table_isolated_no_height_threshold :
    ∀ (cfg : Config) (h : Nat),
      cfg.use_isolated_db_for_mpt_table = true →
      cfg.use_isolated_db_for_mpt_table_height = none →
      new_snapshot_by_merging_mpt_table_in_current_db cfg h = false
      ∧ open_snapshot_write_mpt_table_in_current_db cfg h = false := by
  intro cfg h h1 h2
  simp [new_snapshot_by_merging_mpt_table_in_current_db,
    open_snapshot_write_mpt_table_in_current_db, h1, h2]

theorem mpt_table_isolated_no_height_threshold_witness :
    new_snapshot_by_merging_mpt_table_in_current_db cfgIsolated 123 = false
    ∧ open_snapshot_write_mpt_table_in_current_db cfgIsolated 123 = false :=
  mpt_table_isolated_no_height_threshold cfgIsolated 123 (by decide) (by decide)

/-- Claim C5, amended: open_snapshot_readonly collapses the exclusive-busy
and absent outcomes into one and the same Ok None result (they are not
distinguishable in the return value); a live shared entry is upgraded and
returned with its strong count incremented; a fresh open (untracked path,
existing file, permit available, mpt table inline) returns a new shared
handle consuming one permit; and when Ok None is returned because of an
exclusive entry the state, in particular the permit pool, is untouched. -/
theorem open_snapshot_readonly_outcomes :
    (∀ (cfg : Config) (p : DbPath) (t : Bool) (eid : Nat) (s : MState),
        tblGet s.cache p = some Entry.exclusive →
        open_snapshot_readonly cfg p t eid s = (Except.ok none, s))
    ∧ (∀ (cfg : Config) (p : DbPath) (t : Bool) (eid : Nat) (s : MState),
        tblGet s.cache p = none → p ∉ s.files →
        open_snapshot_readonly cfg p t eid s = (Except.ok none, s))
    ∧ (∀ (cfg : Config) (p : DbPath) (t : Bool) (eid : Nat) (s : MState)
          (n : Nat) (rm : Bool),
        tblGet s.cache p = some (Entry.shared (n + 1) rm) →
        open_snapshot_readonly cfg p t eid s
          = (Except.ok (some (Handle.db p)),
             { s with cache := tblPut s.cache p (Entry.shared (n + 2) rm) }))
    ∧ (∀ (cfg : Config) (p : DbPath) (eid : Nat) (s : MState),
        cfg.use_isolated_db_for_mpt_table = false →
        tblGet s.cache p = none → p ∈ s.files → s.permits ≠ 0 →
        open_snapshot_readonly cfg p false eid s
          = (Except.ok (some (Handle.db p)),
             { s with cache := tblPut s.cache p (Entry.shared 1 false),
                      permits := s.permits - 1 })) := by
  refine ⟨?_, ?_, ?_, ?_⟩
  · intro cfg p t eid s h
    simp [open_snapshot_readonly, h]
  · intro cfg p t eid s h1 h2
    simp [open_snapshot_readonly, h1, h2]
  · intro cfg p t eid s n rm h
    simp [open_snapshot_readonly, h]
  · intro cfg p eid s hcfg h1 h2 h3
    simp [open_snapshot_readonly, h1, h2, h3, osr_after_acquire,
      osr_open_inner, osr_finish, hcfg]

theorem open_snapshot_readonly_outcomes_witness :
    open_snapshot_readonly cfgPlain (DbPath.snapshotDb 7) true 7 exclState
      = (Except.ok none, exclState)
    ∧ open_snapshot_readonly cfgPlain (DbPath.snapshotDb 9) true 9 absentState
      = (Except.ok none, absentState)
    ∧ open_snapshot_readonly cfgPlain (DbPath.snapshotDb 4) false 4 sharedState
      = (Except.ok (some (Handle.db (DbPath.snapshotDb 4))),
         { sharedState with cache := tblPut sharedState.cache (DbPath.snapshotDb 4) (Entry.shared 2 false) })
    ∧ open_snapshot_readonly cfgPlain (DbPath.snapshotDb 1) false 1 destroyState
      = (Except.ok (some (Handle.db (DbPath.snapshotDb 1))),
         { destroyState with cache := tblPut destroyState.cache (DbPath.snapshotDb 1) (Entry.shared 1 false), permits := destroyState.permits - 1 }) :=
  ⟨open_snapshot_readonly_outcomes.1 cfgPlain (DbPath.snapshotDb 7) true 7 exclState (by decide),
   open_snapshot_readonly_outcomes.2.1 cfgPlain (DbPath.snapshotDb 9) true 9 absentState
     (by decide) (by decide),
   open_snapshot_readonly_outcomes.2.2.1 cfgPlain (DbPath.snapshotDb 4) false 4 sharedState
     0 false (by decide),
   open_snapshot_readonly_outcomes.2.2.2 cfgPlain (DbPath.snapshotDb 1) 1 destroyState
     (by decide) (by decide) (by decide) (by decide)⟩

/-- Claim C6: open_snapshot_write fails with SnapshotAlreadyExists, leaving
the state unchanged, whenever the cache already holds any entry (exclusive
or shared) for the path; and whenever it succeeds, the cache held no entry
beforehand and holds an exclusive entry afterwards. -/
theorem open_snapshot_write_exclusive_discipline :
    (∀ (cfg : Config) (p : DbPath) (c : Bool) (h : Nat) (s : MState),
        (tblGet s.cache p).isSome →
        open_snapshot_write cfg p c h s = (Except.error Err.SnapshotAlreadyExists, s))
    ∧ (∀ (cfg : Config) (p : DbPath) (c : Bool) (h : Nat) (s : MState)
          (hdl : Handle) (s1 : MState),
        open_snapshot_write cfg p c h s = (Except.ok hdl, s1) →
        tblGet s.cache p = none ∧ tblGet s1.cache p = some Entry.exclusive) := by
  constructor
  · intro cfg p c h s hsome
    simp [open_snapshot_write, hsome]
  · intro cfg p c h s hdl s1 heq
    by_cases hsome : (tblGet s.cache p).isSome
    · simp [open_snapshot_write, hsome] at heq
    · have hnone : tblGet s.cache p = none := by
        cases hv : tblGet s.cache p with
        | none => rfl
        | some v => rw [hv] at hsome; simp at hsome
      refine ⟨hnone, ?_⟩
      by_cases hperm : s.permits = 0
      · simp [open_snapshot_write, hnone, hperm] at heq
      · cases c with
        | true =>
          simp [open_snapshot_write, hnone, hperm] at heq
          rw [← heq.2, tblGet_tblPut_self]
        | false =>
          by_cases hmem : p ∈ s.files
          · simp [open_snapshot_write, hnone, hperm, hmem] at heq
            rw [← heq.2, tblGet_tblPut_self]
          · simp [open_snapshot_write, hnone, hperm, hmem] at heq

theorem open_snapshot_write_exclusive_discipline_witness :
    open_snapshot_write cfgPlain (DbPath.snapshotDb 7) false 0 exclState
      = (Except.error Err.SnapshotAlreadyExists, exclState)
    ∧ (tblGet destroyState.cache (get_merge_temp_snapshot_db_path 1 2) = none
       ∧ tblGet (open_snapshot_write cfgPlain (get_merge_temp_snapshot_db_path 1 2)
            true 0 destroyState).2.cache (get_merge_temp_snapshot_db_path 1 2)
          = some Entry.exclusive) :=
  ⟨open_snapshot_write_exclusive_discipline.1 cfgPlain (DbPath.snapshotDb 7) false 0
     exclState (by decide),
   open_snapshot_write_exclusive_discipline.2 cfgPlain
     (get_merge_temp_snapshot_db_path 1 2) true 0 destroyState
     (Handle.db (get_merge_temp_snapshot_db_path 1 2))
     (open_snapshot_write cfgPlain (get_merge_temp_snapshot_db_path 1 2) true 0
       destroyState).2 (by decide)⟩

/-- Claim C2, amended: when force_cow is set and cow duplication is
unsupported on the host platform, try_make_snapshot_cow_copy returns the
fatal SnapshotCowCreation error and try_copy_snapshot propagates it, but
new_snapshot_by_merging catches any error of try_copy_snapshot (the
if-let-Ok at line 676) and silently falls back to the
fresh-create-then-copy_and_merge path, so the error is not returned to its
caller and the merge succeeds. -/
theorem new_snapshot_by_merging_force_cow_fallback
    (old_epoch new_epoch h : Nat) (hold : old_epoch ≠ NULL_EPOCH) :
    try_copy_snapshot cfgForceCow oracleStdOnly (get_snapshot_db_path old_epoch)
        (get_merge_temp_snapshot_db_path old_epoch new_epoch) (init_merge_state old_epoch)
      = (Except.error Err.SnapshotCowCreation, init_merge_state old_epoch)
    ∧ (new_snapshot_by_merging cfgForceCow oracleStdOnly old_epoch new_epoch h
        (init_merge_state old_epoch)).1 = Except.ok ()
    ∧ Event.copyAndMergeEv (get_snapshot_db_path old_epoch)
        ∈ (new_snapshot_by_merging cfgForceCow oracleStdOnly old_epoch new_epoch h
            (init_merge_state old_epoch)).2.events := by
  refine ⟨?_, ?_, ?_⟩
  · simp [try_copy_snapshot, try_make_snapshot_cow_copy,
      try_make_snapshot_cow_copy_impl, cfgForceCow, oracleStdOnly]
  · simp [new_snapshot_by_merging, nsbm_merge_phase, nsbm_mpt_block,
      try_copy_snapshot, try_make_snapshot_cow_copy, try_make_snapshot_cow_copy_impl,
      open_snapshot_write, open_snapshot_readonly, osr_after_acquire, osr_open_inner,
      osr_finish, drop_shared_handle, drop_exclusive_handle, rename_snapshot_db,
      tblGet, tblPut, tblDel, addFile, delFile, init_merge_state, cfgForceCow,
      oracleStdOnly, get_snapshot_db_path, get_merge_temp_snapshot_db_path,
      get_mpt_snapshot_db_path, latest_mpt_path,
      new_snapshot_by_merging_mpt_table_in_current_db,
      open_snapshot_write_mpt_table_in_current_db, hold]
  · simp [new_snapshot_by_merging, nsbm_merge_phase, nsbm_mpt_block,
      try_copy_snapshot, try_make_snapshot_cow_copy, try_make_snapshot_cow_copy_impl,
      open_snapshot_write, open_snapshot_readonly, osr_after_acquire, osr_open_inner,
      osr_finish, drop_shared_handle, drop_exclusive_handle, rename_snapshot_db,
      tblGet, tblPut, tblDel, addFile, delFile, init_merge_state, cfgForceCow,
      oracleStdOnly, get_snapshot_db_path, get_merge_temp_snapshot_db_path,
      get_mpt_snapshot_db_path, latest_mpt_path,
      new_snapshot_by_merging_mpt_table_in_current_db,
      open_snapshot_write_mpt_table_in_current_db, hold]

theorem new_snapshot_by_merging_force_cow_fallback_witness :
    try_copy_snapshot cfgForceCow oracleStdOnly (get_snapshot_db_path 3)
        (get_merge_temp_snapshot_db_path 3 4) (init_merge_state 3)
      = (Except.error Err.SnapshotCowCreation, init_merge_state 3)
    ∧ (new_snapshot_by_merging cfgForceCow oracleStdOnly 3 4 9
        (init_merge_state 3)).1 = Except.ok ()
    ∧ Event.copyAndMergeEv (get_snapshot_db_path 3)
        ∈ (new_snapshot_by_merging cfgForceCow oracleStdOnly 3 4 9
            (init_merge_state 3)).2.events :=
  new_snapshot_by_merging_force_cow_fallback 3 4 9 (by decide)

/-- Claim C4, amended: when the fallback full directory copy of the old
snapshot fails, try_copy_snapshot returns the SnapshotCopyFailure error, but
new_snapshot_by_merging catches it (the if-let-Ok at line 676) and retries
through the fresh-create-then-copy_and_merge path instead of propagating the
error, so the error is not returned to its caller and the merge succeeds. -/
theorem new_snapshot_by_merging_copy_failure_fallback
    (old_epoch new_epoch h : Nat) (hold : old_epoch ≠ NULL_EPOCH) :
    try_copy_snapshot cfgPlain oracleNoCopy (get_snapshot_db_path old_epoch)
        (get_merge_temp_snapshot_db_path old_epoch new_epoch) (init_merge_state old_epoch)
      = (Except.error Err.SnapshotCopyFailure, init_merge_state old_epoch)
    ∧ (new_snapshot_by_merging cfgPlain oracleNoCopy old_epoch new_epoch h
        (init_merge_state old_epoch)).1 = Except.ok ()
    ∧ Event.copyAndMergeEv (get_snapshot_db_path old_epoch)
        ∈ (new_snapshot_by_merging cfgPlain oracleNoCopy old_epoch new_epoch h
            (init_merge_state old_epoch)).2.events := by
  refine ⟨?_, ?_, ?_⟩
  · simp [try_copy_snapshot, try_make_snapshot_cow_copy,
      try_make_snapshot_cow_copy_impl, cfgPlain, oracleNoCopy]
  · simp [new_snapshot_by_merging, nsbm_merge_phase, nsbm_mpt_block,
      try_copy_snapshot, try_make_snapshot_cow_copy, try_make_snapshot_cow_copy_impl,
      open_snapshot_write, open_snapshot_readonly, osr_after_acquire, osr_open_inner,
      osr_finish, drop_shared_handle, drop_exclusive_handle, rename_snapshot_db,
      tblGet, tblPut, tblDel, addFile, delFile, init_merge_state, cfgPlain,
      oracleNoCopy, get_snapshot_db_path, get_merge_temp_snapshot_db_path,
      get_mpt_snapshot_db_path, latest_mpt_path,
      new_snapshot_by_merging_mpt_table_in_current_db,
      open_snapshot_write_mpt_table_in_current_db, hold]
  · simp [new_snapshot_by_merging, nsbm_merge_phase, nsbm_mpt_block,
      try_copy_snapshot, try_make_snapshot_cow_copy, try_make_snapshot_cow_copy_impl,
      open_snapshot_write, open_snapshot_readonly, osr_after_acquire, osr_open_inner,
      osr_finish, drop_shared_handle, drop_exclusive_handle, rename_snapshot_db,
      tblGet, tblPut, tblDel, addFile, delFile, init_merge_state, cfgPlain,
      oracleNoCopy, get_snapshot_db_path, get_merge_temp_snapshot_db_path,
      get_mpt_snapshot_db_path, latest_mpt_path,
      new_snapshot_by_merging_mpt_table_in_current_db,
      open_snapshot_write_mpt_table_in_current_db, hold]

theorem new_snapshot_by_merging_copy_failure_fallback_witness :
    try_copy_snapshot cfgPlain oracleNoCopy (get_snapshot_db_path 5)
        (get_merge_temp_snapshot_db_path 5 6) (init_merge_state 5)
      = (Except.error Err.SnapshotCopyFailure, init_merge_state 5)
    ∧ (new_snapshot_by_merging cfgPlain oracleNoCopy 5 6 11
        (init_merge_state 5)).1 = Except.ok ()
    ∧ Event.copyAndMergeEv (get_snapshot_db_path 5)
        ∈ (new_snapshot_by_merging cfgPlain oracleNoCopy 5 6 11
            (init_merge_state 5)).2.events :=
  new_snapshot_by_merging_copy_failure_fallback 5 6 11 (by decide)

theorem kvLookup_kvInsert {β : Type} (k : Nat) (v : β) (k' : Nat) :
    ∀ m : List (Nat × β),
      kvLookup k' (kvInsert k v m) = if k' = k then some v else kvLookup k' m := by
  intro m
  induction m with
  | nil => simp [kvInsert, kvLookup]
  | cons hd tl ih =>
    obtain ⟨k1, v1⟩ := hd
    simp only [kvInsert]
    by_cases h1 : k < k1
    · simp only [if_pos h1]
      by_cases hk : k' = k
      · simp [kvLookup, hk]
      · simp [kvLookup, hk]
    · by_cases h2 : k = k1
      · simp only [if_neg h1, if_pos h2]
        by_cases hk : k' = k
        · by_cases hk1 : k' = k1
          · simp [kvLookup, hk, hk1]
          · omega
        · by_cases hk1 : k' = k1
          · omega
          · simp [kvLookup, hk, hk1]
      · simp only [if_neg h1, if_neg h2]
        by_cases hk1 : k' = k1
        · have hk : ¬ k' = k := by omega
          have hk2 : ¬ k1 = k := by omega
          simp [kvLookup, hk1, hk, hk2]
        · simp [kvLookup, hk1, ih]

theorem mem_kvInsert {β : Type} (k : Nat) (v : β) (p : Nat × β) :
    ∀ m : List (Nat × β), p ∈ kvInsert k v m → p = (k, v) ∨ p ∈ m := by
  intro m
  induction m with
  | nil => simp [kvInsert]
  | cons hd tl ih =>
    obtain ⟨k1, v1⟩ := hd
    simp only [kvInsert]
    by_cases h1 : k < k1
    · simp only [if_pos h1]
      intro hp
      rcases List.mem_cons.mp hp with h | h
      · exact Or.inl h
      · exact Or.inr h
    · by_cases h2 : k = k1
      · simp only [if_neg h1, if_pos h2]
        intro hp
        rcases List.mem_cons.mp hp with h | h
        · exact Or.inl h
        · exact Or.inr (List.mem_cons.mpr (Or.inr h))
      · simp only [if_neg h1, if_neg h2]
        intro hp
        rcases List.mem_cons.mp hp with h | h
        · exact Or.inr (List.mem_cons.mpr (Or.inl h))
        · rcases ih h with h3 | h3
          · exact Or.inl h3
          · exact Or.inr (List.mem_cons.mpr (Or.inr h3))

theorem keySorted_kvInsert {β : Type} (k : Nat) (v : β) :
    ∀ m : List (Nat × β), keySorted m → keySorted (kvInsert k v m) := by
  intro m
  induction m with
  | nil => intro hm; simp [kvInsert, keySorted]
  | cons hd tl ih =>
    obtain ⟨k1, v1⟩ := hd
    intro hm
    have hall : ∀ b ∈ tl, k1 < b.1 := (List.pairwise_cons.mp hm).1
    have htl : keySorted tl := (List.pairwise_cons.mp hm).2
    simp only [kvInsert]
    by_cases h1 : k < k1
    · simp only [if_pos h1]
      refine List.pairwise_cons.mpr ⟨?_, hm⟩
      intro b hb
      rcases List.mem_cons.mp hb with h | h
      · rw [h]; exact h1
      · exact Nat.lt_trans h1 (hall b h)
    · by_cases h2 : k = k1
      · simp only [if_neg h1, if_pos h2]
        refine List.pairwise_cons.mpr ⟨?_, htl⟩
        intro b hb
        have := hall b hb
        omega
      · simp only [if_neg h1, if_neg h2]
        refine List.pairwise_cons.mpr ⟨?_, ih htl⟩
        intro b hb
        rcases mem_kvInsert k v b tl hb with h | h
        · rw [h]; simp; omega
        · exact hall b h

theorem mem_kvErase {β : Type} (k : Nat) (p : Nat × β) :
    ∀ m : List (Nat × β), p ∈ kvErase k m → p ∈ m := by
  intro m
  induction m with
  | nil => simp [kvErase]
  | cons hd tl ih =>
    obtain ⟨k1, v1⟩ := hd
    simp only [kvErase]
    by_cases h1 : k = k1
    · simp only [if_pos h1]
      intro hp
      exact List.mem_cons.mpr (Or.inr hp)
    · simp only [if_neg h1]
      intro hp
      rcases List.mem_cons.mp hp with h | h
      · exact List.mem_cons.mpr (Or.inl h)
      · exact List.mem_cons.mpr (Or.inr (ih h))

theorem keySorted_kvErase {β : Type} (k : Nat) :
    ∀ m : List (Nat × β), keySorted m → keySorted (kvErase k m) := by
  intro m
  induction m with
  | nil => intro hm; simp [kvErase, keySorted]
  | cons hd tl ih =>
    obtain ⟨k1, v1⟩ := hd
    intro hm
    have hall : ∀ b ∈ tl, k1 < b.1 := (List.pairwise_cons.mp hm).1
    have htl : keySorted tl := (List.pairwise_cons.mp hm).2
    simp only [kvErase]
    by_cases h1 : k = k1
    · simp only [if_pos h1]; exact htl
    · simp only [if_neg h1]
      refine List.pairwise_cons.mpr ⟨?_, ih htl⟩
      intro b hb
      exact hall b (mem_kvErase k b tl hb)

theorem kvLookup_eq_none {β : Type} (k : Nat) :
    ∀ m : List (Nat × β), (∀ p ∈ m, p.1 ≠ k) → kvLookup k m = none := by
  intro m
  induction m with
  | nil => intro _; simp [kvLookup]
  | cons hd tl ih =>
    obtain ⟨k1, v1⟩ := hd
    intro h
    have h1 : k1 ≠ k := h (k1, v1) (List.mem_cons.mpr (Or.inl rfl))
    have hk : ¬ k = k1 := fun he => h1 he.symm
    simp only [kvLookup, if_neg hk]
    exact ih (fun p hp => h p (List.mem_cons.mpr (Or.inr hp)))

theorem kvLookup_kvErase {β : Type} (k k' : Nat) :
    ∀ m : List (Nat × β), keySorted m →
      kvLookup k' (kvErase k m) = if k' = k then none else kvLookup k' m := by
  intro m
  induction m with
  | nil => intro _; simp [kvErase, kvLookup]
  | cons hd tl ih =>
    obtain ⟨k1, v1⟩ := hd
    intro hm
    have hall : ∀ b ∈ tl, k1 < b.1 := (List.pairwise_cons.mp hm).1
    have htl : keySorted tl := (List.pairwise_cons.mp hm).2
    simp only [kvErase]
    by_cases h1 : k = k1
    · simp only [if_pos h1]
      by_cases hk : k' = k
      · rw [if_pos hk]
        refine kvLookup_eq_none k' tl ?_
        intro p hp
        have := hall p hp
        omega
      · rw [if_neg hk]
        have hk1 : ¬ k' = k1 := by omega
        simp [kvLookup, hk1]
    · simp only [if_neg h1]
      by_cases hk1 : k' = k1
      · have hk : ¬ k' = k := by omega
        have hk2 : ¬ k1 = k := by omega
        simp [kvLookup, hk1, hk, hk2]
      · simp [kvLookup, hk1, ih htl]

theorem keySorted_dApply (m : List (Nat × Nat)) (op : DeltaOp) :
    keySorted m → keySorted (dApply m op) := by
  intro hm
  obtain ⟨k, ov⟩ := op
  cases ov with
  | some v => exact keySorted_kvInsert k v m hm
  | none => exact keySorted_kvErase k m hm

theorem keySorted_foldl_dApply :
    ∀ (dump : List DeltaOp) (m : List (Nat × Nat)),
      keySorted m → keySorted (dump.foldl dApply m) := by
  intro dump
  induction dump with
  | nil => intro m hm; simpa using hm
  | cons op rest ih =>
    intro m hm
    rw [List.foldl_cons]
    exact ih (dApply m op) (keySorted_dApply m op hm)

theorem keySorted_foldl_kvInsert {β : Type} :
    ∀ (d : List (Nat × β)) (acc : List (Nat × β)),
      keySorted acc →
      keySorted (d.foldl (fun t op => kvInsert op.1 op.2 t) acc) := by
  intro d
  induction d with
  | nil => intro acc hacc; simpa using hacc
  | cons op rest ih =>
    intro acc hacc
    rw [List.foldl_cons]
    exact ih (kvInsert op.1 op.2 acc) (keySorted_kvInsert op.1 op.2 acc hacc)

theorem keySorted_dump_delta_mpt (d : List DeltaOp) :
    keySorted (dump_delta_mpt d) := by
  have : keySorted ([] : List (Nat × Option Nat)) := by simp [keySorted]
  exact keySorted_foldl_kvInsert d [] this

theorem keySorted_buildTable (entries : List (Nat × Nat)) :
    keySorted (buildTable entries) := by
  have : keySorted ([] : List (Nat × Nat)) := by simp [keySorted]
  exact keySorted_foldl_kvInsert entries [] this

theorem kvLookup_foldl_dApply :
    ∀ (dump : List DeltaOp) (m : List (Nat × Nat)), keySorted m → keySorted dump →
      ∀ k', kvLookup k' (dump.foldl dApply m)
        = deltaResolve (kvLookup k' dump) (kvLookup k' m) := by
  intro dump
  induction dump with
  | nil => intro m hm hd k'; simp [deltaResolve, kvLookup]
  | cons op rest ih =>
    intro m hm hd k'
    obtain ⟨k1, ov1⟩ := op
    have hall : ∀ b ∈ rest, k1 < b.1 := (List.pairwise_cons.mp hd).1
    have hd2 : keySorted rest := (List.pairwise_cons.mp hd).2
    rw [List.foldl_cons,
      ih (dApply m (k1, ov1)) (keySorted_dApply m (k1, ov1) hm) hd2 k']
    by_cases hk : k' = k1
    · subst hk
      have hnone : kvLookup k' rest = none := by
        refine kvLookup_eq_none k' rest ?_
        intro p hp
        have := hall p hp
        omega
      rw [hnone]
      cases ov1 with
      | some v =>
        have hi := kvLookup_kvInsert k' v k' m
        simp [deltaResolve, kvLookup, dApply, hi]
      | none =>
        have he := kvLookup_kvErase k' k' m hm
        simp [deltaResolve, kvLookup, dApply, he]
    · cases hrest : kvLookup k' rest with
      | some o =>
        cases o with
        | some v => simp [deltaResolve, kvLookup, hk, hrest]
        | none => simp [deltaResolve, kvLookup, hk, hrest]
      | none =>
        cases ov1 with
        | some v =>
          have hi := kvLookup_kvInsert k1 v k' m
          simp [deltaResolve, kvLookup, hk, hrest, dApply, hi]
        | none =>
          have he := kvLookup_kvErase k1 k' m hm
          simp [deltaResolve, kvLookup, hk, hrest, dApply, he]

theorem kvLookup_deltaInserts (k' : Nat) :
    ∀ dump : List DeltaOp, keySorted dump →
      kvLookup k' (deltaInserts dump) = deltaResolve (kvLookup k' dump) none := by
  intro dump
  induction dump with
  | nil => intro _; simp [deltaInserts, kvLookup, deltaResolve]
  | cons op rest ih =>
    intro hd
    obtain ⟨k1, ov1⟩ := op
    have hall : ∀ b ∈ rest, k1 < b.1 := (List.pairwise_cons.mp hd).1
    have hd2 : keySorted rest := (List.pairwise_cons.mp hd).2
    cases ov1 with
    | some v =>
      simp only [deltaInserts]
      by_cases hk : k' = k1
      · simp [kvLookup, hk, deltaResolve]
      · simp [kvLookup, hk, ih hd2]
    | none =>
      simp only [deltaInserts]
      by_cases hk : k' = k1
      · subst hk
        rw [ih hd2]
        have hnone : kvLookup k' rest = none := by
          refine kvLookup_eq_none k' rest ?_
          intro p hp
          have := hall p hp
          omega
        rw [hnone]
        simp [kvLookup, deltaResolve]
      · simp [kvLookup, hk, ih hd2]

theorem mem_deltaInserts (p : Nat × Nat) :
    ∀ dump : List DeltaOp, p ∈ deltaInserts dump → ∃ q ∈ dump, q.1 = p.1 := by
  intro dump
  induction dump with
  | nil => simp [deltaInserts]
  | cons op rest ih =>
    obtain ⟨k1, ov1⟩ := op
    cases ov1 with
    | some v =>
      simp only [deltaInserts]
      intro hp
      rcases List.mem_cons.mp hp with h | h
      · refine ⟨(k1, some v), List.mem_cons.mpr (Or.inl rfl), ?_⟩
        rw [h]
      · obtain ⟨q, hq, hqe⟩ := ih h
        exact ⟨q, List.mem_cons.mpr (Or.inr hq), hqe⟩
    | none =>
      simp only [deltaInserts]
      intro hp
      obtain ⟨q, hq, hqe⟩ := ih hp
      exact ⟨q, List.mem_cons.mpr (Or.inr hq), hqe⟩

theorem keySorted_deltaInserts :
    ∀ dump : List DeltaOp, keySorted dump → keySorted (deltaInserts dump) := by
  intro dump
  induction dump with
  | nil => intro _; simp [deltaInserts, keySorted]
  | cons op rest ih =>
    intro hd
    obtain ⟨k1, ov1⟩ := op
    have hall : ∀ b ∈ rest, k1 < b.1 := (List.pairwise_cons.mp hd).1
    have hd2 : keySorted rest := (List.pairwise_cons.mp hd).2
    cases ov1 with
    | some v =>
      simp only [deltaInserts]
      refine List.pairwise_cons.mpr ⟨?_, ih hd2⟩
      intro b hb
      obtain ⟨q, hq, hqe⟩ := mem_deltaInserts b rest hb
      have := hall q hq
      show k1 < b.1
      omega
    | none =>
      simp only [deltaInserts]
      exact ih hd2

theorem copy_and_merge_table_nil_right (old : List (Nat × Nat)) :
    copy_and_merge_table old [] = old := by
  rw [copy_and_merge_table.eq_def]
  cases old <;> rfl

theorem copy_and_merge_table_nil_left (d : DeltaOp) (ds : List DeltaOp) :
    copy_and_merge_table [] (d :: ds) = deltaInserts (d :: ds) := by
  rw [copy_and_merge_table.eq_def]

theorem copy_and_merge_table_cons_cons (k1 v1 k2 : Nat) (ov2 : Option Nat)
    (old1 : List (Nat × Nat)) (dump2 : List DeltaOp) :
    copy_and_merge_table ((k1, v1) :: old1) ((k2, ov2) :: dump2)
      = if k1 < k2 then (k1, v1) :: copy_and_merge_table old1 ((k2, ov2) :: dump2)
        else if k2 < k1 then
          match ov2 with
          | some v2 => (k2, v2) :: copy_and_merge_table ((k1, v1) :: old1) dump2
          | none => copy_and_merge_table ((k1, v1) :: old1) dump2
        else
          match ov2 with
          | some v2 => (k2, v2) :: copy_and_merge_table old1 dump2
          | none => copy_and_merge_table old1 dump2 := by
  rw [copy_and_merge_table.eq_def]

theorem mem_copy_and_merge :
    ∀ (n : Nat) (old : List (Nat × Nat)) (dump : List DeltaOp),
      old.length + dump.length ≤ n →
      ∀ p ∈ copy_and_merge_table old dump,
        (∃ q ∈ old, q.1 = p.1) ∨ ∃ q ∈ dump, q.1 = p.1 := by
  intro n
  induction n with
  | zero =>
    intro old dump hlen p hp
    have h1 : old = [] := List.length_eq_zero.mp (by omega)
    have h2 : dump = [] := List.length_eq_zero.mp (by omega)
    subst h1; subst h2
    rw [copy_and_merge_table_nil_right] at hp
    simp at hp
  | succ n ih =>
    intro old dump hlen p hp
    rcases old with _ | ⟨⟨k1, v1⟩, old1⟩
    · rcases dump with _ | ⟨⟨k2, ov2⟩, dump2⟩
      · rw [copy_and_merge_table_nil_right] at hp
        simp at hp
      · rw [copy_and_merge_table_nil_left] at hp
        obtain ⟨q, hq, hqe⟩ := mem_deltaInserts p ((k2, ov2) :: dump2) hp
        exact Or.inr ⟨q, hq, hqe⟩
    · rcases dump with _ | ⟨⟨k2, ov2⟩, dump2⟩
      · rw [copy_and_merge_table_nil_right] at hp
        exact Or.inl ⟨p, hp, rfl⟩
      · by_cases h12 : k1 < k2
        · have heq : copy_and_merge_table ((k1, v1) :: old1) ((k2, ov2) :: dump2)
              = (k1, v1) :: copy_and_merge_table old1 ((k2, ov2) :: dump2) := by
            rw [copy_and_merge_table_cons_cons]
            rw [if_pos h12]
          rw [heq] at hp
          rcases List.mem_cons.mp hp with h | h
          · exact Or.inl ⟨(k1, v1), List.mem_cons.mpr (Or.inl rfl), by rw [h]⟩
          · rcases ih old1 ((k2, ov2) :: dump2) (by simp at hlen ⊢; omega) p h with
              ⟨q, hq, hqe⟩ | ⟨q, hq, hqe⟩
            · exact Or.inl ⟨q, List.mem_cons.mpr (Or.inr hq), hqe⟩
            · exact Or.inr ⟨q, hq, hqe⟩
        · by_cases h21 : k2 < k1
          · cases ov2 with
            | some v2 =>
              have heq : copy_and_merge_table ((k1, v1) :: old1) ((k2, some v2) :: dump2)
                  = (k2, v2) :: copy_and_merge_table ((k1, v1) :: old1) dump2 := by
                rw [copy_and_merge_table_cons_cons]
                rw [if_neg h12]
                rw [if_pos h21]
              rw [heq] at hp
              rcases List.mem_cons.mp hp with h | h
              · exact Or.inr ⟨(k2, some v2), List.mem_cons.mpr (Or.inl rfl), by rw [h]⟩
              · rcases ih ((k1, v1) :: old1) dump2 (by simp at hlen ⊢; omega) p h with
                  ⟨q, hq, hqe⟩ | ⟨q, hq, hqe⟩
                · exact Or.inl ⟨q, hq, hqe⟩
                · exact Or.inr ⟨q, List.mem_cons.mpr (Or.inr hq), hqe⟩
            | none =>
              have heq : copy_and_merge_table ((k1, v1) :: old1) ((k2, none) :: dump2)
                  = copy_and_merge_table ((k1, v1) :: old1) dump2 := by
                rw [copy_and_merge_table_cons_cons]
                rw [if_neg h12]
                rw [if_pos h21]
              rw [heq] at hp
              rcases ih ((k1, v1) :: old1) dump2 (by simp at hlen ⊢; omega) p hp with
                ⟨q, hq, hqe⟩ | ⟨q, hq, hqe⟩
              · exact Or.inl ⟨q, hq, hqe⟩
              · exact Or.inr ⟨q, List.mem_cons.mpr (Or.inr hq), hqe⟩
          · cases ov2 with
            | some v2 =>
              have heq : copy_and_merge_table ((k1, v1) :: old1) ((k2, some v2) :: dump2)
                  = (k2, v2) :: copy_and_merge_table old1 dump2 := by
                rw [copy_and_merge_table_cons_cons]
                rw [if_neg h12]
                rw [if_neg h21]
              rw [heq] at hp
              rcases List.mem_cons.mp hp with h | h
              · exact Or.inr ⟨(k2, some v2), List.mem_cons.mpr (Or.inl rfl), by rw [h]⟩
              · rcases ih old1 dump2 (by simp at hlen ⊢; omega) p h with
                  ⟨q, hq, hqe⟩ | ⟨q, hq, hqe⟩
                · exact Or.inl ⟨q, List.mem_cons.mpr (Or.inr hq), hqe⟩
                · exact Or.inr ⟨q, List.mem_cons.mpr (Or.inr hq), hqe⟩
            | none =>
              have heq : copy_and_merge_table ((k1, v1) :: old1) ((k2, none) :: dump2)
                  = copy_and_merge_table old1 dump2 := by
                rw [copy_and_merge_table_cons_cons]
                rw [if_neg h12]
                rw [if_neg h21]
              rw [heq] at hp
              rcases ih old1 dump2 (by simp at hlen ⊢; omega) p hp with
                ⟨q, hq, hqe⟩ | ⟨q, hq, hqe⟩
              · exact Or.inl ⟨q, List.mem_cons.mpr (Or.inr hq), hqe⟩
              · exact Or.inr ⟨q, List.mem_cons.mpr (Or.inr hq), hqe⟩

theorem keySorted_copy_and_merge :
    ∀ (n : Nat) (old : List (Nat × Nat)) (dump : List DeltaOp),
      old.length + dump.length ≤ n →
      keySorted old → keySorted dump →
      keySorted (copy_and_merge_table old dump) := by
  intro n
  induction n with
  | zero =>
    intro old dump hlen ho hd
    have h1 : old = [] := List.length_eq_zero.mp (by omega)
    have h2 : dump = [] := List.length_eq_zero.mp (by omega)
    subst h1; subst h2
    rw [copy_and_merge_table_nil_right]
    exact ho
  | succ n ih =>
    intro old dump hlen ho hd
    rcases old with _ | ⟨⟨k1, v1⟩, old1⟩
    · rcases dump with _ | ⟨⟨k2, ov2⟩, dump2⟩
      · rw [copy_and_merge_table_nil_right]
        exact ho
      · rw [copy_and_merge_table_nil_left]
        exact keySorted_deltaInserts _ hd
    · rcases dump with _ | ⟨⟨k2, ov2⟩, dump2⟩
      · rw [copy_and_merge_table_nil_right]
        exact ho
      · have hallo : ∀ b ∈ old1, k1 < b.1 := (List.pairwise_cons.mp ho).1
        have ho2 : keySorted old1 := (List.pairwise_cons.mp ho).2
        have halld : ∀ b ∈ dump2, k2 < b.1 := (List.pairwise_cons.mp hd).1
        have hd2 : keySorted dump2 := (List.pairwise_cons.mp hd).2
        by_cases h12 : k1 < k2
        · have heq : copy_and_merge_table ((k1, v1) :: old1) ((k2, ov2) :: dump2)
              = (k1, v1) :: copy_and_merge_table old1 ((k2, ov2) :: dump2) := by
            rw [copy_and_merge_table_cons_cons]
            rw [if_pos h12]
          rw [heq]
          refine List.pairwise_cons.mpr
            ⟨?_, ih old1 ((k2, ov2) :: dump2) (by simp at hlen ⊢; omega) ho2 hd⟩
          intro b hb
          rcases mem_copy_and_merge (old1.length + ((k2, ov2) :: dump2).length)
              old1 ((k2, ov2) :: dump2) (Nat.le_refl _) b hb with
            ⟨q, hq, hqe⟩ | ⟨q, hq, hqe⟩
          · have := hallo q hq
            show k1 < b.1
            omega
          · rcases List.mem_cons.mp hq with h | h
            · have hq1 : q.1 = k2 := by rw [h]
              show k1 < b.1
              omega
            · have := halld q h
              show k1 < b.1
              omega
        · by_cases h21 : k2 < k1
          · cases ov2 with
            | some v2 =>
              have heq : copy_and_merge_table ((k1, v1) :: old1) ((k2, some v2) :: dump2)
                  = (k2, v2) :: copy_and_merge_table ((k1, v1) :: old1) dump2 := by
                rw [copy_and_merge_table_cons_cons]
                rw [if_neg h12]
                rw [if_pos h21]
              rw [heq]
              refine List.pairwise_cons.mpr
                ⟨?_, ih ((k1, v1) :: old1) dump2 (by simp at hlen ⊢; omega) ho hd2⟩
              intro b hb
              rcases mem_copy_and_merge (((k1, v1) :: old1).length + dump2.length)
                  ((k1, v1) :: old1) dump2 (Nat.le_refl _) b hb with
                ⟨q, hq, hqe⟩ | ⟨q, hq, hqe⟩
              · rcases List.mem_cons.mp hq with h | h
                · have hq1 : q.1 = k1 := by rw [h]
                  show k2 < b.1
                  omega
                · have := hallo q h
                  show k2 < b.1
                  omega
              · have := halld q hq
                show k2 < b.1
                omega
            | none =>
              have heq : copy_and_merge_table ((k1, v1) :: old1) ((k2, none) :: dump2)
                  = copy_and_merge_table ((k1, v1) :: old1) dump2 := by
                rw [copy_and_merge_table_cons_cons]
                rw [if_neg h12]
                rw [if_pos h21]
              rw [heq]
              exact ih ((k1, v1) :: old1) dump2 (by simp at hlen ⊢; omega) ho hd2
          · cases ov2 with
            | some v2 =>
              have heq : copy_and_merge_table ((k1, v1) :: old1) ((k2, some v2) :: dump2)
                  = (k2, v2) :: copy_and_merge_table old1 dump2 := by
                rw [copy_and_merge_table_cons_cons]
                rw [if_neg h12]
                rw [if_neg h21]
              rw [heq]
              refine List.pairwise_cons.mpr
                ⟨?_, ih old1 dump2 (by simp at hlen ⊢; omega) ho2 hd2⟩
              intro b hb
              rcases mem_copy_and_merge (old1.length + dump2.length)
                  old1 dump2 (Nat.le_refl _) b hb with
                ⟨q, hq, hqe⟩ | ⟨q, hq, hqe⟩
              · have := hallo q hq
                show k2 < b.1
                omega
              · have := halld q hq
                show k2 < b.1
                omega
            | none =>
              have heq : copy_and_merge_table ((k1, v1) :: old1) ((k2, none) :: dump2)
                  = copy_and_merge_table old1 dump2 := by
                rw [copy_and_merge_table_cons_cons]
                rw [if_neg h12]
                rw [if_neg h21]
              rw [heq]
              exact ih old1 dump2 (by simp at hlen ⊢; omega) ho2 hd2

theorem kvLookup_copy_and_merge :
    ∀ (n : Nat) (old : List (Nat × Nat)) (dump : List DeltaOp),
      old.length + dump.length ≤ n →
      keySorted old → keySorted dump →
      ∀ k', kvLookup k' (copy_and_merge_table old dump)
        = deltaResolve (kvLookup k' dump) (kvLookup k' old) := by
  intro n
  induction n with
  | zero =>
    intro old dump hlen ho hd k'
    have h1 : old = [] := List.length_eq_zero.mp (by omega)
    have h2 : dump = [] := List.length_eq_zero.mp (by omega)
    subst h1; subst h2
    rw [copy_and_merge_table_nil_right]
    simp [kvLookup, deltaResolve]
  | succ n ih =>
    intro old dump hlen ho hd k'
    rcases dump with _ | ⟨⟨k2, ov2⟩, dump2⟩
    · rw [copy_and_merge_table_nil_right]
      simp [kvLookup, deltaResolve]
    · rcases old with _ | ⟨⟨k1, v1⟩, old1⟩
      · rw [copy_and_merge_table_nil_left]
        rw [kvLookup_deltaInserts k' ((k2, ov2) :: dump2) hd]
        simp [kvLookup]
      · have hallo : ∀ b ∈ old1, k1 < b.1 := (List.pairwise_cons.mp ho).1
        have ho2 : keySorted old1 := (List.pairwise_cons.mp ho).2
        have halld : ∀ b ∈ dump2, k2 < b.1 := (List.pairwise_cons.mp hd).1
        have hd2 : keySorted dump2 := (List.pairwise_cons.mp hd).2
        by_cases h12 : k1 < k2
        · have heq : copy_and_merge_table ((k1, v1) :: old1) ((k2, ov2) :: dump2)
              = (k1, v1) :: copy_and_merge_table old1 ((k2, ov2) :: dump2) := by
            rw [copy_and_merge_table_cons_cons]
            rw [if_pos h12]
          rw [heq]
          by_cases hk : k' = k1
          · subst hk
            have hne2 : ¬ k' = k2 := by omega
            have hnone : kvLookup k' dump2 = none := by
              refine kvLookup_eq_none k' dump2 ?_
              intro p hp
              have := halld p hp
              omega
            simp [kvLookup, hne2, hnone, deltaResolve]
          · simp only [kvLookup, if_neg hk]
            rw [ih old1 ((k2, ov2) :: dump2) (by simp at hlen ⊢; omega) ho2 hd k']
            simp [kvLookup]
        · by_cases h21 : k2 < k1
          · cases ov2 with
            | some v2 =>
              have heq : copy_and_merge_table ((k1, v1) :: old1) ((k2, some v2) :: dump2)
                  = (k2, v2) :: copy_and_merge_table ((k1, v1) :: old1) dump2 := by
                rw [copy_and_merge_table_cons_cons]
                rw [if_neg h12]
                rw [if_pos h21]
              rw [heq]
              by_cases hk2 : k' = k2
              · subst hk2
                simp [kvLookup, deltaResolve]
              · simp only [kvLookup, if_neg hk2]
                rw [ih ((k1, v1) :: old1) dump2 (by simp at hlen ⊢; omega) ho hd2 k']
                simp [kvLookup]
            | none =>
              have heq : copy_and_merge_table ((k1, v1) :: old1) ((k2, none) :: dump2)
                  = copy_and_merge_table ((k1, v1) :: old1) dump2 := by
                rw [copy_and_merge_table_cons_cons]
                rw [if_neg h12]
                rw [if_pos h21]
              rw [heq]
              rw [ih ((k1, v1) :: old1) dump2 (by simp at hlen ⊢; omega) ho hd2 k']
              by_cases hk2 : k' = k2
              · subst hk2
                have hnd : kvLookup k' dump2 = none := by
                  refine kvLookup_eq_none k' dump2 ?_
                  intro p hp
                  have := halld p hp
                  omega
                have hne1 : ¬ k' = k1 := by omega
                have hno : kvLookup k' old1 = none := by
                  refine kvLookup_eq_none k' old1 ?_
                  intro p hp
                  have := hallo p hp
                  omega
                simp [kvLookup, hnd, hno, hne1, deltaResolve]
              · simp [kvLookup, hk2]
          · have hke : k1 = k2 := by omega
            cases ov2 with
            | some v2 =>
              have heq : copy_and_merge_table ((k1, v1) :: old1) ((k2, some v2) :: dump2)
                  = (k2, v2) :: copy_and_merge_table old1 dump2 := by
                rw [copy_and_merge_table_cons_cons]
                rw [if_neg h12]
                rw [if_neg h21]
              rw [heq]
              by_cases hk2 : k' = k2
              · subst hk2
                simp [kvLookup, deltaResolve]
              · have hk1 : ¬ k' = k1 := by omega
                simp only [kvLookup, if_neg hk2, if_neg hk1]
                rw [ih old1 dump2 (by simp at hlen ⊢; omega) ho2 hd2 k']
            | none =>
              have heq : copy_and_merge_table ((k1, v1) :: old1) ((k2, none) :: dump2)
                  = copy_and_merge_table old1 dump2 := by
                rw [copy_and_merge_table_cons_cons]
                rw [if_neg h12]
                rw [if_neg h21]
              rw [heq]
              rw [ih old1 dump2 (by simp at hlen ⊢; omega) ho2 hd2 k']
              by_cases hk2 : k' = k2
              · subst hk2
                have hnd : kvLookup k' dump2 = none := by
                  refine kvLookup_eq_none k' dump2 ?_
                  intro p hp
                  have := halld p hp
                  omega
                have hno : kvLookup k' old1 = none := by
                  refine kvLookup_eq_none k' old1 ?_
                  intro p hp
                  have := hallo p hp
                  omega
                simp [kvLookup, hnd, hno, deltaResolve]
              · have hk1 : ¬ k' = k1 := by omega
                simp [kvLookup, hk2, hk1]

theorem keySorted_ext {β : Type} :
    ∀ (m1 m2 : List (Nat × β)), keySorted m1 → keySorted m2 →
      (∀ k, kvLookup k m1 = kvLookup k m2) → m1 = m2 := by
  intro m1
  induction m1 with
  | nil =>
    intro m2 h1 h2 hk
    rcases m2 with _ | ⟨⟨k2, v2⟩, t2⟩
    · rfl
    · have e := hk k2
      simp [kvLookup] at e
  | cons hd t1 ih =>
    obtain ⟨k1, v1⟩ := hd
    intro m2 h1 h2 hk
    rcases m2 with _ | ⟨⟨k2, v2⟩, t2⟩
    · have e := hk k1
      simp [kvLookup] at e
    · have hall1 : ∀ b ∈ t1, k1 < b.1 := (List.pairwise_cons.mp h1).1
      have ht1 : keySorted t1 := (List.pairwise_cons.mp h1).2
      have hall2 : ∀ b ∈ t2, k2 < b.1 := (List.pairwise_cons.mp h2).1
      have ht2 : keySorted t2 := (List.pairwise_cons.mp h2).2
      have hkeys : k1 = k2 := by
        by_contra hne
        by_cases hlt : k1 < k2
        · have e := hk k1
          have hn2 : kvLookup k1 t2 = none := by
            refine kvLookup_eq_none k1 t2 ?_
            intro p hp
            have := hall2 p hp
            omega
          simp [kvLookup, hne, hn2] at e
        · have e := hk k2
          have hn1 : kvLookup k2 t1 = none := by
            refine kvLookup_eq_none k2 t1 ?_
            intro p hp
            have := hall1 p hp
            omega
          have hne2 : ¬ k2 = k1 := by omega
          simp [kvLookup, hne2, hn1] at e
      subst hkeys
      have hv : v1 = v2 := by
        have e := hk k1
        simp [kvLookup] at e
        exact e
      subst hv
      have ht : t1 = t2 := by
        refine ih t2 ht1 ht2 ?_
        intro k
        by_cases hkk : k = k1
        · subst hkk
          have hn1 : kvLookup k t1 = none := by
            refine kvLookup_eq_none k t1 ?_
            intro p hp
            have := hall1 p hp
            omega
          have hn2 : kvLookup k t2 = none := by
            refine kvLookup_eq_none k t2 ?_
            intro p hp
            have := hall2 p hp
            omega
          rw [hn1, hn2]
        · have e := hk k
          simp [kvLookup, hkk] at e
          exact e
      rw [ht]

/-- Claim C8: for a fixed pair of sorted old snapshot contents and delta
iterator, the merkle root produced along the cow path of
new_snapshot_by_merging (copy the old snapshot, dump the delta, direct_merge
against the old handle) equals the root along the
fresh-create-then-copy_and_merge fallback path: the two merge strategies
compute identical snapshot contents. -/
theorem new_snapshot_by_merging_cow_fallback_root_eq
    (old : List (Nat × Nat)) (d : List DeltaOp) (ho : keySorted old) :
    new_snapshot_by_merging_cow_root old d
      = new_snapshot_by_merging_fallback_root old d := by
  have hd : keySorted (dump_delta_mpt d) := keySorted_dump_delta_mpt d
  have h1 : keySorted (direct_merge_table old (dump_delta_mpt d)) :=
    keySorted_foldl_dApply (dump_delta_mpt d) old ho
  have h2 : keySorted (copy_and_merge_table old (dump_delta_mpt d)) :=
    keySorted_copy_and_merge (old.length + (dump_delta_mpt d).length) old
      (dump_delta_mpt d) (Nat.le_refl _) ho hd
  have heq : direct_merge_table old (dump_delta_mpt d)
      = copy_and_merge_table old (dump_delta_mpt d) := by
    refine keySorted_ext _ _ h1 h2 ?_
    intro k
    simp only [direct_merge_table]
    rw [kvLookup_foldl_dApply (dump_delta_mpt d) old ho hd k]
    rw [kvLookup_copy_and_merge (old.length + (dump_delta_mpt d).length) old
      (dump_delta_mpt d) (Nat.le_refl _) ho hd k]
  unfold new_snapshot_by_merging_cow_root new_snapshot_by_merging_fallback_root
  rw [heq]

theorem new_snapshot_by_merging_cow_fallback_root_eq_witness :
    new_snapshot_by_merging_cow_root [(1, 10), (3, 30)]
        [(2, some 20), (3, none), (2, some 21)]
      = new_snapshot_by_merging_fallback_root [(1, 10), (3, 30)]
        [(2, some 20), (3, none), (2, some 21)] :=
  new_snapshot_by_merging_cow_fallback_root_eq [(1, 10), (3, 30)]
    [(2, some 20), (3, none), (2, some 21)]
    (by unfold keySorted; decide)
